import Mathlib

/-!
Verification development for the RecipeFlow repository (src/src/App.js, with the
identical utility functions also present in src/app.js).

The development shallowly embeds:
* the YouTube URL → video-id extraction (`getYoutubeVideoId`, a pair of
  JavaScript regular expressions, embedded here as explicit backtracking
  matchers over `List Char`);
* the thumbnail derivation (`getYoutubeThumbnailUrl`);
* the Firestore-backed mutation handlers (`handleDeleteRecipe`,
  `handleSaveGroceryList`, grocery `onSnapshot` handler) over an explicit
  model of the stored collections;
* the add-recipe form submission (`handleSubmit`);
* the debounced title-fetch effect of `AddRecipeModal` as a small timed
  event semantics (`MState`, `stepTimed`, `runTimed`).
-/

namespace RecipeFlow

/-! ### Character classes of the two regular expressions

`youtubeRegex  = /(?:youtube\.com\/(?:[^\/\n\s]+\/\S+\/|(?:v|e(?:mbed)?)\/|.*[?&]v=)|youtu\.be\/)([a-zA-Z0-9_-]{11})/`
`shortsRegex   = /youtube\.com\/shorts\/([a-zA-Z0-9_-]{11})/`

`isTok` is the capture class `[a-zA-Z0-9_-]`; `isJsWs` is the JavaScript `\s`
class (code points); `isClassA` is `[^\/\n\s]`; `isNonSpace` is `\S`;
`isDotCh` is `.` (anything but a line terminator, no /s flag). -/

def isTok (c : Char) : Bool :=
  decide ((97 ≤ c.toNat ∧ c.toNat ≤ 122) ∨ (65 ≤ c.toNat ∧ c.toNat ≤ 90) ∨
          (48 ≤ c.toNat ∧ c.toNat ≤ 57) ∨ c.toNat = 95 ∨ c.toNat = 45)

def isJsWs (c : Char) : Bool :=
  decide (c.toNat = 9 ∨ c.toNat = 10 ∨ c.toNat = 11 ∨ c.toNat = 12 ∨ c.toNat = 13 ∨
          c.toNat = 32 ∨ c.toNat = 160 ∨ c.toNat = 5760 ∨
          (8192 ≤ c.toNat ∧ c.toNat ≤ 8202) ∨ c.toNat = 8232 ∨ c.toNat = 8233 ∨
          c.toNat = 8239 ∨ c.toNat = 8287 ∨ c.toNat = 12288 ∨ c.toNat = 65279)

def isClassA (c : Char) : Bool :=
  decide (c.toNat ≠ 47 ∧ c.toNat ≠ 10) && !isJsWs c

def isNonSpace (c : Char) : Bool := !isJsWs c

def isDotCh (c : Char) : Bool :=
  decide (c.toNat ≠ 10 ∧ c.toNat ≠ 13 ∧ c.toNat ≠ 8232 ∧ c.toNat ≠ 8233)

/-- The capture group `([a-zA-Z0-9_-]{11})`: exactly the next 11 characters,
each in the capture class (nothing follows the group in either regex). -/
def take11 (l : List Char) : Option (List Char) :=
  if (l.take 11).length = 11 ∧ (l.take 11).all isTok = true then some (l.take 11)
  else none

/-- Match a literal character sequence and return the remainder. -/
def dropLit : List Char → List Char → Option (List Char)
  | [], l => some l
  | _ :: _, [] => none
  | p :: ps, c :: cs => if p = c then dropLit ps cs else none

/-- `\S* \/ ([a-zA-Z0-9_-]{11})` with a greedy `\S*`: the deepest (rightmost)
slash is tried first, exactly as JavaScript backtracking does. -/
def g2 : List Char → Option (List Char)
  | [] => none
  | c :: rest =>
    if isNonSpace c then
      match g2 rest with
      | some t => some t
      | none => if c = '/' then take11 rest else none
    else none

/-- `\S+ \/ ([a-zA-Z0-9_-]{11})`: at least one `\S`, then `g2`. -/
def matchSPlus : List Char → Option (List Char)
  | [] => none
  | c :: rest => if isNonSpace c then g2 rest else none

/-- Tail of alternative `[^\/\n\s]+\/\S+\/(cap)` after its first character:
the class excludes `/`, so the run is forcedly maximal; when it stops the
next character must be the literal slash. -/
def g1 : List Char → Option (List Char)
  | [] => none
  | c :: rest =>
    if isClassA c then g1 rest
    else if c = '/' then matchSPlus rest
    else none

/-- Alternative `[^\/\n\s]+\/\S+\/(cap)` of the youtube regex. -/
def matchA : List Char → Option (List Char)
  | [] => none
  | c :: rest => if isClassA c then g1 rest else none

/-- Alternative `(?:v|e(?:mbed)?)\/(cap)`: the literals `v/`, `embed/`, `e/`
are pairwise incompatible, so a first-match chain is faithful. -/
def matchB (l : List Char) : Option (List Char) :=
  match dropLit ['v', '/'] l with
  | some r => take11 r
  | none =>
    match dropLit ['e', 'm', 'b', 'e', 'd', '/'] l with
    | some r => take11 r
    | none =>
      match dropLit ['e', '/'] l with
      | some r => take11 r
      | none => none

/-- The `[?&]v=(cap)` suffix of alternative C, attempted at one position. -/
def tryQV (c : Char) (rest : List Char) : Option (List Char) :=
  if c = '?' ∨ c = '&' then
    match dropLit ['v', '='] rest with
    | some r2 => take11 r2
    | none => none
  else none

/-- Alternative `.*[?&]v=(cap)` with a greedy `.*`: prefer consuming the
current character into `.*` (deepest first), fall back to matching `[?&]`
here; a line terminator stops `.*`. -/
def matchC : List Char → Option (List Char)
  | [] => none
  | c :: rest =>
    if isDotCh c then
      match matchC rest with
      | some t => some t
      | none => tryQV c rest
    else tryQV c rest

def ycList : List Char := ['y', 'o', 'u', 't', 'u', 'b', 'e', '.', 'c', 'o', 'm', '/']

def ybList : List Char := ['y', 'o', 'u', 't', 'u', '.', 'b', 'e', '/']

def scList : List Char :=
  ['y', 'o', 'u', 't', 'u', 'b', 'e', '.', 'c', 'o', 'm', '/', 's', 'h', 'o', 'r', 't', 's', '/']

/-- The `youtube\.com\/(?:A|B|C)(cap)` half of the alternation, attempted at
one start position (alternatives A, B, C in source order, with backtracking
into the next alternative when the capture fails). -/
def youtubeAtYc (l : List Char) : Option (List Char) :=
  match dropLit ycList l with
  | some r =>
    match matchA r with
    | some t => some t
    | none =>
      match matchB r with
      | some t => some t
      | none => matchC r
  | none => none

/-- The whole youtube regex attempted at one start position: first the
`youtube\.com\/…` half, then `youtu\.be\/(cap)` at the same position. -/
def youtubeAt (l : List Char) : Option (List Char) :=
  match youtubeAtYc l with
  | some t => some t
  | none =>
    match dropLit ybList l with
    | some r => take11 r
    | none => none

/-- `String.prototype.match` semantics: leftmost start position wins. -/
def scanY : List Char → Option (List Char)
  | [] => youtubeAt []
  | c :: rest =>
    match youtubeAt (c :: rest) with
    | some t => some t
    | none => scanY rest

/-- The shorts regex attempted at one start position. -/
def shortsAt (l : List Char) : Option (List Char) :=
  match dropLit scList l with
  | some r => take11 r
  | none => none

def scanS : List Char → Option (List Char)
  | [] => shortsAt []
  | c :: rest =>
    match shortsAt (c :: rest) with
    | some t => some t
    | none => scanS rest

/-- Embedding of `getYoutubeVideoId` (src/src/App.js lines 136-150; the same
function appears at src/app.js lines 138-152): `match[1]` of the youtube
regex if it matched (the capture is always non-empty when the regex matches),
else `shortsMatch[1]`, else the empty string. -/
def getYoutubeVideoId (url : String) : String :=
  match scanY url.data with
  | some t => String.mk t
  | none =>
    match scanS url.data with
    | some t => String.mk t
    | none => ""

/-- Embedding of `getYoutubeThumbnailUrl` (src/src/App.js lines 153-156). -/
def getYoutubeThumbnailUrl (videoId : String) : String :=
  if videoId = "" then "" else "https://img.youtube.com/vi/" ++ videoId ++ "/hqdefault.jpg"

/-! ### Recipe collection and the delete handler

A stored recipe document: Firestore document id plus the fields written by
`handleAddRecipe` (`{youtubeUrl, videoId, thumbnailUrl, title, tags}`).
The collection is modelled as a list in query order (the order in which
`getDocs` returns the documents), so `querySnapshot.docs[0]` is the head of
the filtered list. -/

structure StoredRecipe where
  docId : String
  youtubeUrl : String
  videoId : String
  thumbnailUrl : String
  title : String
  tags : List String
deriving DecidableEq, Repr

/-- Embedding of `handleDeleteRecipe` (src/src/App.js lines 179-199): if auth
is not ready, toast a loading message and change nothing; otherwise query the
records whose `videoId` equals the target; if none, toast `Recipe not
found!`; otherwise delete the document whose id is `querySnapshot.docs[0].id`
and toast `Recipe Deleted!`.  Returns the collection after the mutation and
the toast message. -/
def handleDeleteRecipe (isAuthReady : Bool) (recipes : List StoredRecipe)
    (videoIdToDelete : String) : List StoredRecipe × String :=
  if isAuthReady = false then (recipes, "Application is loading. Cannot delete.")
  else
    match recipes.filter (fun r => r.videoId == videoIdToDelete) with
    | [] => (recipes, "Recipe not found!")
    | d :: _ => (recipes.filter (fun r => !(r.docId == d.docId)), "Recipe Deleted!")

/-! ### Grocery list: save handler and subscription handler -/

/-- Embedding of `handleSaveGroceryList` (src/src/App.js lines 202-216).
The singleton document `groceryList/myList` is modelled as
`Option String`: `none` when the document does not exist, `some c` when it
exists with `content` field `c` (the only field ever written).  Returns the
document after the save, the `isGroceryListEditing` flag, and the toast. -/
def handleSaveGroceryList (isAuthReady : Bool) (groceryText : String)
    (store : Option String) (isEditing : Bool) : Option String × Bool × String :=
  if isAuthReady = false then (store, isEditing, "Application is loading. Cannot save.")
  else (some groceryText, false, "Grocery List Saved!")

/-- Embedding of the grocery-list `onSnapshot` handler (src/src/App.js lines
111-133): the displayed text a subscription event sets, namely
`docSnap.data().content || ''` when the document exists and `''` otherwise
(`||` maps the only falsy string, `""`, to `''`). -/
def groceryLoadText (store : Option String) : String :=
  match store with
  | some content => if content = "" then "" else content
  | none => ""

/-! ### Add-recipe form submission -/

def categories : List String := ["Breakfast", "Lunch", "Snacks", "Dinner", "Late-night"]

/-- The record constructed by `AddRecipeModal.handleSubmit` (src/src/App.js
lines 319-332) and passed to the append mutation (`onAddRecipe`), or `none`
when the guard `isValidUrl && videoId` rejects the submission. -/
def handleSubmit (youtubeUrl thumbnailUrl videoTitle : String)
    (selectedTags : List String) (isValidUrl : Bool) : Option StoredRecipe :=
  let videoId := getYoutubeVideoId youtubeUrl
  if isValidUrl = true ∧ videoId ≠ "" then
    some
      { docId := ""
        youtubeUrl := youtubeUrl
        videoId := videoId
        thumbnailUrl := thumbnailUrl
        title := if videoTitle = "" then "Untitled Recipe" else videoTitle
        tags := if selectedTags.length > 0 then selectedTags else categories }
  else none

/-! ### The debounced title-fetch effect of AddRecipeModal

A timed event semantics for the effect at src/src/App.js lines 261-309.
State mirrors the component state plus the single pending debounce timer
(each effect run registers one and its cleanup clears the previous one),
the set of in-flight title fetches (an in-flight fetch is NOT cancelled by
the cleanup: only the timer is), and an archive of every fetch attempt
issued.  Events are input edits (a change of the URL field, which re-runs
the effect) and fetch resolutions; a pending timer fires implicitly as soon
as an event at or past its deadline is processed, matching the JavaScript
event loop.  The mount-time effect run only schedules a timer for the empty
URL, whose firing leaves the (already empty) state unchanged, so the initial
state starts with no pending timer. -/

inductive FetchOutcome where
  | ok (items : List String)
  | err
deriving DecidableEq, Repr

inductive MEvent where
  | edit (u : String)
  | resolve (fid : Nat) (outcome : FetchOutcome)
deriving DecidableEq, Repr

structure MState where
  youtubeUrl : String
  thumbnailUrl : String
  videoTitle : String
  isValidUrl : Bool
  isLoadingThumbnail : Bool
  isFetchingTitle : Bool
  pendingTimer : Option (Nat × String)
  inFlight : List (Nat × String)
  fetches : List String
  nextFid : Nat
deriving DecidableEq, Repr

def initMState : MState :=
  { youtubeUrl := "", thumbnailUrl := "", videoTitle := "", isValidUrl := false,
    isLoadingThumbnail := false, isFetchingTitle := false, pendingTimer := none,
    inFlight := [], fetches := [], nextFid := 0 }

/-- The `setVideoTitle` performed when a fetch resolves: `items[0]` title when
`data.items` is non-empty, the not-found placeholder when it is empty or
missing, the error placeholder when the call threw. -/
def outcomeTitle : FetchOutcome → String
  | .ok [] => "Untitled Recipe (Video not found or private)"
  | .ok (t :: _) => t
  | .err => "Untitled Recipe (Error fetching title)"

/-- The body of the debounced `setTimeout` callback (lines 262-298), run when
the timer fires with its captured URL: extract the video id; on success set
the thumbnail, mark the URL valid, stop the thumbnail spinner, and (only if
an API key is configured) mark the title as being fetched and issue the
metadata call; with no key set the placeholder title instead (note the code
does not clear `isFetchingTitle` on that path); on extraction failure reset
thumbnail, title, validity and both flags. -/
def fireTimer (hasApiKey : Bool) (s : MState) : MState :=
  match s.pendingTimer with
  | none => s
  | some (_, u) =>
    let s1 := { s with pendingTimer := none }
    let videoId := getYoutubeVideoId u
    if videoId ≠ "" then
      let s2 := { s1 with thumbnailUrl := getYoutubeThumbnailUrl videoId,
                          isValidUrl := true, isLoadingThumbnail := false }
      if hasApiKey then
        { s2 with isFetchingTitle := true,
                  inFlight := s2.inFlight ++ [(s2.nextFid, videoId)],
                  fetches := s2.fetches ++ [videoId],
                  nextFid := s2.nextFid + 1 }
      else
        { s2 with videoTitle := "Untitled Recipe (API Key missing)" }
    else
      { s1 with thumbnailUrl := "", videoTitle := "", isValidUrl := false,
                isLoadingThumbnail := false, isFetchingTitle := false }

/-- Apply one event at time `τ` (after any due timer has fired).  An edit
runs the previous effect's cleanup (clear the timer, drop both flags e.g.
lines 304-308), stores the new URL, then runs the effect body (register a
timer for `τ + 500`, raise both flags when the URL is non-empty, clear the
title, lines 298-303).  A resolution applies the `setVideoTitle`/`finally`
of lines 275-286 provided the fetch is still in flight; nothing ever
cancels an in-flight fetch. -/
def applyEvent (τ : Nat) (s : MState) : MEvent → MState
  | .edit u =>
    let s1 := { s with youtubeUrl := u, pendingTimer := none,
                       isLoadingThumbnail := false, isFetchingTitle := false }
    let s2 := { s1 with pendingTimer := some (τ + 500, u) }
    let s3 := if u ≠ "" then { s2 with isLoadingThumbnail := true, isFetchingTitle := true }
              else s2
    { s3 with videoTitle := "" }
  | .resolve fid outcome =>
    if s.inFlight.any (fun p => p.1 == fid) then
      { s with videoTitle := outcomeTitle outcome, isFetchingTitle := false,
               inFlight := s.inFlight.filter (fun p => !(p.1 == fid)) }
    else s

/-- Fire the pending timer if its deadline has passed by time `τ`. -/
def flushAt (hasApiKey : Bool) (s : MState) (τ : Nat) : MState :=
  match s.pendingTimer with
  | some (ft, _) => if ft ≤ τ then fireTimer hasApiKey s else s
  | none => s

def stepTimed (hasApiKey : Bool) (s : MState) (ev : Nat × MEvent) : MState :=
  applyEvent ev.1 (flushAt hasApiKey s ev.1) ev.2

def runTimed (hasApiKey : Bool) (s : MState) (evs : List (Nat × MEvent)) : MState :=
  evs.foldl (stepTimed hasApiKey) s

/-- Strictly increasing edit times, each within the 500ms debounce window of
the previous time `tp`. -/
def chainAfter (tp : Nat) : List (Nat × String) → Bool
  | [] => true
  | (t, _) :: rest => (decide (tp < t) && decide (t < tp + 500)) && chainAfter t rest

/-- The counterexample trace for claim C1: the first edit's fetch is still in
flight when the second edit occurs; the second fetch resolves first (with
"Title B"), the stale first fetch resolves last (with "Title A"). -/
def c1events : List (Nat × MEvent) :=
  [(0, .edit "https://youtu.be/AAAAAAAAAAA"),
   (600, .edit "https://youtu.be/BBBBBBBBBBB"),
   (1200, .resolve 1 (.ok ["Title B"])),
   (1300, .resolve 0 (.ok ["Title A"]))]

/-- The counterexample trace for claim C2: a valid URL is resolved, then the
input is cleared; the derived thumbnail/validity are inspected right after
the clearing edit. -/
def c2events : List (Nat × MEvent) :=
  [(0, .edit "https://youtu.be/dQw4w9WgXcQ"),
   (600, .edit "")]

example : getYoutubeVideoId "https://youtu.be/dQw4w9WgXcQ" = "dQw4w9WgXcQ" := by decide

example : getYoutubeVideoId "https://www.youtube.com/watch?v=dQw4w9WgXcQ" = "dQw4w9WgXcQ" := by
  decide

example : getYoutubeVideoId "https://www.youtube.com/shorts/abc123XYZ_-" = "abc123XYZ_-" := by
  decide

example : getYoutubeVideoId "not a url" = "" := by decide

example : getYoutubeVideoId "" = "" := by decide

example : getYoutubeVideoId "https://www.youtube.com/embed/dQw4w9WgXcQ" = "dQw4w9WgXcQ" := by
  decide

/-! ### Soundness of the matchers: every capture is an 11-character token -/

def isTokenList (t : List Char) : Prop := t.length = 11 ∧ ∀ c ∈ t, isTok c = true

lemma take11_sound {l t : List Char} (h : take11 l = some t) : isTokenList t := by
  unfold take11 at h
  split at h
  · rename_i hc
    cases h
    exact ⟨hc.1, fun c hm => List.all_eq_true.mp hc.2 c hm⟩
  · exact absurd h (by simp)

lemma g2_sound : ∀ {l t : List Char}, g2 l = some t → isTokenList t := by
  intro l
  induction l with
  | nil => intro t h; simp [g2] at h
  | cons c rest ih =>
    intro t h
    unfold g2 at h
    split at h
    · split at h
      · rename_i hg
        cases h
        exact ih hg
      · split at h
        · exact take11_sound h
        · exact absurd h (by simp)
    · exact absurd h (by simp)

lemma matchSPlus_sound {l t : List Char} (h : matchSPlus l = some t) : isTokenList t := by
  cases l with
  | nil => simp [matchSPlus] at h
  | cons c rest =>
    simp only [matchSPlus] at h
    split at h
    · exact g2_sound h
    · exact absurd h (by simp)

lemma g1_sound : ∀ {l t : List Char}, g1 l = some t → isTokenList t := by
  intro l
  induction l with
  | nil => intro t h; simp [g1] at h
  | cons c rest ih =>
    intro t h
    unfold g1 at h
    split at h
    · exact ih h
    · split at h
      · exact matchSPlus_sound h
      · exact absurd h (by simp)

lemma matchA_sound {l t : List Char} (h : matchA l = some t) : isTokenList t := by
  cases l with
  | nil => simp [matchA] at h
  | cons c rest =>
    simp only [matchA] at h
    split at h
    · exact g1_sound h
    · exact absurd h (by simp)

lemma matchB_sound {l t : List Char} (h : matchB l = some t) : isTokenList t := by
  unfold matchB at h
  split at h
  · exact take11_sound h
  · split at h
    · exact take11_sound h
    · split at h
      · exact take11_sound h
      · exact absurd h (by simp)

lemma tryQV_sound {c : Char} {rest t : List Char} (h : tryQV c rest = some t) :
    isTokenList t := by
  unfold tryQV at h
  split at h
  · split at h
    · exact take11_sound h
    · exact absurd h (by simp)
  · exact absurd h (by simp)

lemma matchC_sound : ∀ {l t : List Char}, matchC l = some t → isTokenList t := by
  intro l
  induction l with
  | nil => intro t h; simp [matchC] at h
  | cons c rest ih =>
    intro t h
    unfold matchC at h
    split at h
    · split at h
      · rename_i hg
        cases h
        exact ih hg
      · exact tryQV_sound h
    · exact tryQV_sound h

lemma youtubeAtYc_sound {l t : List Char} (h : youtubeAtYc l = some t) : isTokenList t := by
  unfold youtubeAtYc at h
  split at h
  · split at h
    · rename_i hg
      cases h
      exact matchA_sound hg
    · split at h
      · rename_i hg
        cases h
        exact matchB_sound hg
      · exact matchC_sound h
  · exact absurd h (by simp)

lemma youtubeAt_sound {l t : List Char} (h : youtubeAt l = some t) : isTokenList t := by
  unfold youtubeAt at h
  split at h
  · rename_i hg
    cases h
    exact youtubeAtYc_sound hg
  · split at h
    · exact take11_sound h
    · exact absurd h (by simp)

lemma scanY_sound : ∀ {l t : List Char}, scanY l = some t → isTokenList t := by
  intro l
  induction l with
  | nil => intro t h; exact youtubeAt_sound h
  | cons c rest ih =>
    intro t h
    unfold scanY at h
    split at h
    · rename_i hg
      cases h
      exact youtubeAt_sound hg
    · exact ih h

lemma shortsAt_sound {l t : List Char} (h : shortsAt l = some t) : isTokenList t := by
  unfold shortsAt at h
  split at h
  · exact take11_sound h
  · exact absurd h (by simp)

lemma scanS_sound : ∀ {l t : List Char}, scanS l = some t → isTokenList t := by
  intro l
  induction l with
  | nil => intro t h; exact shortsAt_sound h
  | cons c rest ih =>
    intro t h
    unfold scanS at h
    split at h
    · rename_i hg
      cases h
      exact shortsAt_sound hg
    · exact ih h

/-- C10: `getYoutubeVideoId` is total (it is a Lean function) and for every
input string returns either the empty string or a string of exactly 11
characters drawn from `[a-zA-Z0-9_-]`; no other return value is possible. -/
theorem getYoutubeVideoId_shape (url : String) :
    getYoutubeVideoId url = "" ∨
    ((getYoutubeVideoId url).length = 11 ∧
      ∀ c ∈ (getYoutubeVideoId url).data, isTok c = true) := by
  unfold getYoutubeVideoId
  cases hy : scanY url.data with
  | some t =>
    right
    exact scanY_sound hy
  | none =>
    cases hs : scanS url.data with
    | some t =>
      right
      exact scanS_sound hs
    | none => left; rfl

/-! ### Lemmas about tokens and the matchers, leading to claim C5 -/

lemma tok_ne {c : Char} (d : Char) (h : isTok c = true) (hd : isTok d = false) : c ≠ d := by
  intro he
  rw [he, hd] at h
  exact Bool.false_ne_true h

lemma classA_of_tok {c : Char} (h : isTok c = true) : isClassA c = true := by
  have h' := of_decide_eq_true h
  simp only [isClassA, isJsWs, Bool.and_eq_true, Bool.not_eq_true', decide_eq_true_eq,
    decide_eq_false_iff_not]
  omega

lemma take11_of_token {t : List Char} (hlen : t.length = 11)
    (ht : ∀ c ∈ t, isTok c = true) : take11 t = some t := by
  unfold take11
  rw [show t.take 11 = t by rw [← hlen, List.take_length]]
  rw [if_pos ⟨hlen, List.all_eq_true.mpr ht⟩]

lemma dropLit_mem : ∀ {p l r : List Char}, dropLit p l = some r → ∀ c ∈ p, c ∈ l := by
  intro p
  induction p with
  | nil => intro l r _ c hc; simp at hc
  | cons a ps ih =>
    intro l r h c hc
    cases l with
    | nil => simp [dropLit] at h
    | cons b cs =>
      simp only [dropLit] at h
      split at h
      · rename_i hab
        rcases List.mem_cons.mp hc with hca | hcp
        · exact hca ▸ hab ▸ List.mem_cons_self b cs
        · exact List.mem_cons_of_mem b (ih h c hcp)
      · exact absurd h (by simp)

lemma youtubeAt_tok {l : List Char} (h : ∀ c ∈ l, isTok c = true) : youtubeAt l = none := by
  have hyc : dropLit ycList l = none := by
    cases hd : dropLit ycList l with
    | some r =>
      have hm : ('.' : Char) ∈ l := dropLit_mem hd '.' (by decide)
      exact absurd (h '.' hm) (by decide)
    | none => rfl
  have hyb : dropLit ybList l = none := by
    cases hd : dropLit ybList l with
    | some r =>
      have hm : ('.' : Char) ∈ l := dropLit_mem hd '.' (by decide)
      exact absurd (h '.' hm) (by decide)
    | none => rfl
  simp [youtubeAt, youtubeAtYc, hyc, hyb]

lemma scanY_tok : ∀ {l : List Char}, (∀ c ∈ l, isTok c = true) → scanY l = none := by
  intro l
  induction l with
  | nil => intro h; simp [scanY, youtubeAt_tok h]
  | cons c rest ih =>
    intro h
    simp only [scanY, youtubeAt_tok h]
    exact ih fun d hd => h d (List.mem_cons_of_mem c hd)

lemma youtubeAt_not_y (c : Char) (l : List Char) (h : c ≠ 'y') :
    youtubeAt (c :: l) = none := by
  have hyc : dropLit ycList (c :: l) = none := by
    simp only [ycList, dropLit]
    rw [if_neg fun hh => h hh.symm]
  have hyb : dropLit ybList (c :: l) = none := by
    simp only [ybList, dropLit]
    rw [if_neg fun hh => h hh.symm]
  simp [youtubeAt, youtubeAtYc, hyc, hyb]

lemma scanY_cons_none {c : Char} {l : List Char} (h : youtubeAt (c :: l) = none) :
    scanY (c :: l) = scanY l := by
  simp [scanY, h]

lemma scanY_some : ∀ {l t : List Char}, youtubeAt l = some t → scanY l = some t := by
  intro l t h
  cases l <;> simp [scanY, h]

lemma scanY_skip : ∀ (pre : List Char) {l : List Char}, (∀ c ∈ pre, c ≠ 'y') →
    scanY (pre ++ l) = scanY l := by
  intro pre
  induction pre with
  | nil => intro l _; rfl
  | cons c ps ih =>
    intro l h
    rw [List.cons_append,
      scanY_cons_none (youtubeAt_not_y c (ps ++ l) (h c (List.mem_cons_self c ps)))]
    exact ih fun d hd => h d (List.mem_cons_of_mem c hd)

lemma shortsAt_not_y (c : Char) (l : List Char) (h : c ≠ 'y') :
    shortsAt (c :: l) = none := by
  have hsc : dropLit scList (c :: l) = none := by
    simp only [scList, dropLit]
    rw [if_neg fun hh => h hh.symm]
  simp [shortsAt, hsc]

lemma scanS_cons_none {c : Char} {l : List Char} (h : shortsAt (c :: l) = none) :
    scanS (c :: l) = scanS l := by
  simp [scanS, h]

lemma scanS_some : ∀ {l t : List Char}, shortsAt l = some t → scanS l = some t := by
  intro l t h
  cases l <;> simp [scanS, h]

lemma scanS_skip : ∀ (pre : List Char) {l : List Char}, (∀ c ∈ pre, c ≠ 'y') →
    scanS (pre ++ l) = scanS l := by
  intro pre
  induction pre with
  | nil => intro l _; rfl
  | cons c ps ih =>
    intro l h
    rw [List.cons_append,
      scanS_cons_none (shortsAt_not_y c (ps ++ l) (h c (List.mem_cons_self c ps)))]
    exact ih fun d hd => h d (List.mem_cons_of_mem c hd)

lemma g2_no_slash : ∀ {l : List Char}, (∀ c ∈ l, c ≠ '/') → g2 l = none := by
  intro l
  induction l with
  | nil => intro _; rfl
  | cons c rest ih =>
    intro h
    have hrest := ih fun d hd => h d (List.mem_cons_of_mem c hd)
    cases hn : isNonSpace c
    · simp [g2, hn]
    · simp [g2, hn, hrest, h c (List.mem_cons_self c rest)]

lemma matchSPlus_no_slash {l : List Char} (h : ∀ c ∈ l, c ≠ '/') :
    matchSPlus l = none := by
  cases l with
  | nil => rfl
  | cons c rest =>
    have hrest : g2 rest = none := g2_no_slash fun d hd => h d (List.mem_cons_of_mem c hd)
    cases hn : isNonSpace c <;> simp [matchSPlus, hn, hrest]

lemma g1_classA_all : ∀ {l : List Char}, (∀ c ∈ l, isClassA c = true) → g1 l = none := by
  intro l
  induction l with
  | nil => intro _; rfl
  | cons c rest ih =>
    intro h
    simp [g1, h c (List.mem_cons_self c rest),
      ih fun d hd => h d (List.mem_cons_of_mem c hd)]

lemma matchC_noqa : ∀ {l : List Char}, (∀ c ∈ l, c ≠ '?' ∧ c ≠ '&') → matchC l = none := by
  intro l
  induction l with
  | nil => intro _; rfl
  | cons c rest ih =>
    intro h
    have htq : tryQV c rest = none := by
      unfold tryQV
      rw [if_neg]
      rintro (h1 | h2)
      · exact (h c (List.mem_cons_self c rest)).1 h1
      · exact (h c (List.mem_cons_self c rest)).2 h2
    have hrest := ih fun d hd => h d (List.mem_cons_of_mem c hd)
    cases hd : isDotCh c <;> simp [matchC, hd, htq, hrest]

lemma matchC_step_some {l t : List Char} (c : Char) (hd : isDotCh c = true)
    (h : matchC l = some t) : matchC (c :: l) = some t := by
  simp [matchC, hd, h]

lemma matchC_step_none {l : List Char} (c : Char) (hd : isDotCh c = true)
    (hq : tryQV c l = none) (h : matchC l = none) : matchC (c :: l) = none := by
  simp [matchC, hd, h, hq]

lemma matchC_cons_qv {l : List Char} (c : Char) (hd : isDotCh c = true)
    (h : matchC l = none) : matchC (c :: l) = tryQV c l := by
  simp [matchC, hd, h]

lemma youtubeAtYc_build {l r : List Char} (hd : dropLit ycList l = some r)
    (ha : matchA r = none) (hb : matchB r = none) : youtubeAtYc l = matchC r := by
  unfold youtubeAtYc
  rw [hd]
  show (match matchA r with
        | some t' => some t'
        | none =>
          match matchB r with
          | some t' => some t'
          | none => matchC r) = matchC r
  rw [ha]
  show (match matchB r with
        | some t' => some t'
        | none => matchC r) = matchC r
  rw [hb]

lemma youtubeAt_build_some {l t : List Char} (hyc : youtubeAtYc l = some t) :
    youtubeAt l = some t := by
  unfold youtubeAt
  rw [hyc]

lemma youtubeAt_build_none {l : List Char} (hyc : youtubeAtYc l = none)
    (hyb : dropLit ybList l = none) : youtubeAt l = none := by
  unfold youtubeAt
  rw [hyc]
  show (match dropLit ybList l with
        | some r => take11 r
        | none => none) = none
  rw [hyb]

lemma tok_no_qa {t : List Char} (ht : ∀ c ∈ t, isTok c = true) :
    ∀ c ∈ t, c ≠ '?' ∧ c ≠ '&' :=
  fun c hc => ⟨tok_ne '?' (ht c hc) (by decide), tok_ne '&' (ht c hc) (by decide)⟩

lemma getYtvid_of_shorts {url : String} {t : List Char} (hy : scanY url.data = none)
    (hs : scanS url.data = some t) : getYoutubeVideoId url = String.mk t := by
  unfold getYoutubeVideoId
  rw [hy, hs]

lemma getYtvid_of_scanY {url : String} {t : List Char} (hy : scanY url.data = some t) :
    getYoutubeVideoId url = String.mk t := by
  unfold getYoutubeVideoId
  rw [hy]

/-- At the `youtube.com/shorts/…` start position the youtube regex fails:
alternative A dies looking for a second slash inside the token, B's literals
do not match `shorts/`, C finds no `?` or `&`, and `youtu.be/` mismatches. -/
lemma youtubeAt_shorts_none {t : List Char} (ht : ∀ c ∈ t, isTok c = true) :
    youtubeAt (String.data "youtube.com/shorts/" ++ t) = none := by
  have hA : matchA (String.data "shorts/" ++ t) = matchSPlus t := rfl
  have hA' : matchA (String.data "shorts/" ++ t) = none := by
    rw [hA]
    exact matchSPlus_no_slash fun c hc => tok_ne '/' (ht c hc) (by decide)
  have hB : matchB (String.data "shorts/" ++ t) = none := rfl
  have hconc : ∀ c ∈ String.data "shorts/", c ≠ '?' ∧ c ≠ '&' := by decide
  have hC : matchC (String.data "shorts/" ++ t) = none := by
    apply matchC_noqa
    intro c hc
    rcases List.mem_append.mp hc with hc1 | hc2
    · exact hconc c hc1
    · exact tok_no_qa ht c hc2
  have hyc : youtubeAtYc (String.data "youtube.com/shorts/" ++ t) = none :=
    (youtubeAtYc_build
      (show dropLit ycList (String.data "youtube.com/shorts/" ++ t) =
        some (String.data "shorts/" ++ t) from rfl) hA' hB).trans hC
  exact youtubeAt_build_none hyc rfl

lemma scanY_shorts_none {t : List Char} (ht : ∀ c ∈ t, isTok c = true) :
    scanY (String.data "youtube.com/shorts/" ++ t) = none := by
  have h0 : youtubeAt ('y' :: (String.data "outube.com/shorts/" ++ t)) = none :=
    youtubeAt_shorts_none ht
  rw [show String.data "youtube.com/shorts/" ++ t =
        'y' :: (String.data "outube.com/shorts/" ++ t) from rfl]
  rw [scanY_cons_none h0]
  rw [scanY_skip (String.data "outube.com/shorts/") (by decide)]
  exact scanY_tok ht

lemma scanS_shorts {t : List Char} (h11 : take11 t = some t) :
    scanS (String.data "youtube.com/shorts/" ++ t) = some t := by
  apply scanS_some
  have h : shortsAt (String.data "youtube.com/shorts/" ++ t) = take11 t := rfl
  rw [h, h11]

/-- At the `youtube.com/watch?v=…` start position, alternative C succeeds
with the token as capture (A consumes everything and finds no slash, B's
literals do not match `watch`). -/
lemma youtubeAt_watch {t : List Char} (ht : ∀ c ∈ t, isTok c = true)
    (h11 : take11 t = some t) :
    youtubeAt (String.data "youtube.com/watch?v=" ++ t) = some t := by
  have hA : matchA (String.data "watch?v=" ++ t) = g1 t := rfl
  have hA' : matchA (String.data "watch?v=" ++ t) = none := by
    rw [hA]
    exact g1_classA_all fun c hc => classA_of_tok (ht c hc)
  have hB : matchB (String.data "watch?v=" ++ t) = none := rfl
  have h0 : matchC t = none := matchC_noqa (tok_no_qa ht)
  have h1 : matchC ('=' :: t) = none := by
    apply matchC_step_none '=' (by decide) _ h0
    unfold tryQV
    rw [if_neg]
    rintro (h' | h') <;> exact absurd h' (by decide)
  have h2 : matchC ('v' :: '=' :: t) = none := by
    apply matchC_step_none 'v' (by decide) _ h1
    unfold tryQV
    rw [if_neg]
    rintro (h' | h') <;> exact absurd h' (by decide)
  have h3 : matchC ('?' :: 'v' :: '=' :: t) = some t := by
    rw [matchC_cons_qv '?' (by decide) h2]
    rw [show tryQV '?' ('v' :: '=' :: t) = take11 t from rfl]
    exact h11
  have h4 := matchC_step_some 'h' (by decide) h3
  have h5 := matchC_step_some 'c' (by decide) h4
  have h6 := matchC_step_some 't' (by decide) h5
  have h7 := matchC_step_some 'a' (by decide) h6
  have h8 : matchC (String.data "watch?v=" ++ t) = some t :=
    matchC_step_some 'w' (by decide) h7
  have hyc : youtubeAtYc (String.data "youtube.com/watch?v=" ++ t) = some t :=
    (youtubeAtYc_build
      (show dropLit ycList (String.data "youtube.com/watch?v=" ++ t) =
        some (String.data "watch?v=" ++ t) from rfl) hA' hB).trans h8
  exact youtubeAt_build_some hyc

/-- At the `youtu.be/…` start position the second half of the alternation
captures the token. -/
lemma youtubeAt_yb {t : List Char} (h11 : take11 t = some t) :
    youtubeAt (String.data "youtu.be/" ++ t) = some t := by
  have h : youtubeAt (String.data "youtu.be/" ++ t) = take11 t := rfl
  rw [h, h11]

/-- C5: for every 11-character token over `[a-zA-Z0-9_-]`, the resolver
extracts from a short-form link `youtube.com/shorts/<token>` (bare or with
the usual `https://www.` prefix) exactly the same token it extracts from the
equivalent long-form links `youtube.com/watch?v=<token>` and
`youtu.be/<token>` to the same video — namely the token itself. -/
theorem getYoutubeVideoId_shorts_eq_longform (tok : String)
    (hlen : tok.length = 11) (htok : ∀ c ∈ tok.data, isTok c = true) :
    getYoutubeVideoId ("youtube.com/shorts/" ++ tok) = tok ∧
    getYoutubeVideoId ("https://www.youtube.com/shorts/" ++ tok) = tok ∧
    getYoutubeVideoId ("youtube.com/watch?v=" ++ tok) = tok ∧
    getYoutubeVideoId ("https://www.youtube.com/watch?v=" ++ tok) = tok ∧
    getYoutubeVideoId ("youtu.be/" ++ tok) = tok ∧
    getYoutubeVideoId ("https://youtu.be/" ++ tok) = tok := by
  have h11 : take11 tok.data = some tok.data := take11_of_token hlen htok
  have hmk : String.mk tok.data = tok := rfl
  refine ⟨?_, ?_, ?_, ?_, ?_, ?_⟩
  · rw [← hmk]
    exact getYtvid_of_shorts (scanY_shorts_none htok) (scanS_shorts h11)
  · rw [← hmk]
    apply getYtvid_of_shorts
    · show scanY (String.data "https://www." ++ (String.data "youtube.com/shorts/" ++ tok.data)) = none
      rw [scanY_skip (String.data "https://www.") (by decide)]
      exact scanY_shorts_none htok
    · show scanS (String.data "https://www." ++ (String.data "youtube.com/shorts/" ++ tok.data)) = some tok.data
      rw [scanS_skip (String.data "https://www.") (by decide)]
      exact scanS_shorts h11
  · rw [← hmk]
    exact getYtvid_of_scanY (scanY_some (youtubeAt_watch htok h11))
  · rw [← hmk]
    apply getYtvid_of_scanY
    show scanY (String.data "https://www." ++ (String.data "youtube.com/watch?v=" ++ tok.data)) = some tok.data
    rw [scanY_skip (String.data "https://www.") (by decide)]
    exact scanY_some (youtubeAt_watch htok h11)
  · rw [← hmk]
    exact getYtvid_of_scanY (scanY_some (youtubeAt_yb h11))
  · rw [← hmk]
    apply getYtvid_of_scanY
    show scanY (String.data "https://" ++ (String.data "youtu.be/" ++ tok.data)) = some tok.data
    rw [scanY_skip (String.data "https://") (by decide)]
    exact scanY_some (youtubeAt_yb h11)

/-- Witness for C5 at the concrete token `dQw4w9WgXcQ`. -/
theorem getYoutubeVideoId_shorts_eq_longform_witness :
    ("dQw4w9WgXcQ" : String).length = 11 ∧
    getYoutubeVideoId ("youtube.com/shorts/" ++ "dQw4w9WgXcQ") = "dQw4w9WgXcQ" ∧
    getYoutubeVideoId ("https://www.youtube.com/watch?v=" ++ "dQw4w9WgXcQ") = "dQw4w9WgXcQ" :=
  ⟨by decide,
   (getYoutubeVideoId_shorts_eq_longform "dQw4w9WgXcQ" (by decide) (by decide)).1,
   (getYoutubeVideoId_shorts_eq_longform "dQw4w9WgXcQ" (by decide) (by decide)).2.2.2.1⟩

/-! ### Claims C3 and C4: delete-by-identifier -/

/-- C3: for every recipe collection containing no record whose stored
`videoId` equals the target, invoking delete-by-identifier after session
bootstrap completes (auth ready) reports `Recipe not found!` and leaves the
collection completely unchanged. -/
theorem handleDeleteRecipe_not_found (recipes : List StoredRecipe) (target : String)
    (h : ∀ r ∈ recipes, r.videoId ≠ target) :
    handleDeleteRecipe true recipes target = (recipes, "Recipe not found!") := by
  unfold handleDeleteRecipe
  rw [if_neg (by decide)]
  have hf : recipes.filter (fun r => r.videoId == target) = [] := by
    rw [List.filter_eq_nil_iff]
    intro r hr
    simp [h r hr]
  rw [hf]

/-- Witness for C3. -/
theorem handleDeleteRecipe_not_found_witness :
    handleDeleteRecipe true
      [{ docId := "a", youtubeUrl := "u", videoId := "AAAAAAAAAAA",
         thumbnailUrl := "t", title := "T", tags := ["Lunch"] }] "BBBBBBBBBBB" =
      ([{ docId := "a", youtubeUrl := "u", videoId := "AAAAAAAAAAA",
          thumbnailUrl := "t", title := "T", tags := ["Lunch"] }], "Recipe not found!") :=
  handleDeleteRecipe_not_found _ _ (by decide)

/-- C4: for every collection (with the backend-unique document ids) that
contains a matching record, delete-by-identifier after bootstrap removes
exactly the first match in query order and leaves every other record —
including later records carrying the same duplicate `videoId` — untouched. -/
theorem handleDeleteRecipe_first_match (l1 l2 : List StoredRecipe) (d : StoredRecipe)
    (target : String)
    (hids : ((l1 ++ d :: l2).map StoredRecipe.docId).Nodup)
    (h1 : ∀ r ∈ l1, r.videoId ≠ target)
    (hd : d.videoId = target) :
    handleDeleteRecipe true (l1 ++ d :: l2) target = (l1 ++ l2, "Recipe Deleted!") := by
  unfold handleDeleteRecipe
  rw [if_neg (by decide)]
  have hf1 : l1.filter (fun r => r.videoId == target) = [] := by
    rw [List.filter_eq_nil_iff]
    intro r hr
    simp [h1 r hr]
  have hfilter : (l1 ++ d :: l2).filter (fun r => r.videoId == target) =
      d :: l2.filter (fun r => r.videoId == target) := by
    rw [List.filter_append, hf1, List.nil_append, List.filter_cons_of_pos]
    simp [hd]
  rw [hfilter]
  show ((l1 ++ d :: l2).filter (fun r => !(r.docId == d.docId)), "Recipe Deleted!") =
    (l1 ++ l2, "Recipe Deleted!")
  have hm : ((l1.map StoredRecipe.docId) ++
      (d.docId :: l2.map StoredRecipe.docId)).Nodup := by
    simpa using hids
  have hparts := List.nodup_append.mp hm
  have hno1 : ∀ r ∈ l1, r.docId ≠ d.docId := by
    intro r hr heq
    exact hparts.2.2 (List.mem_map_of_mem StoredRecipe.docId hr)
      (heq ▸ List.mem_cons_self d.docId (l2.map StoredRecipe.docId))
  have hno2 : ∀ r ∈ l2, r.docId ≠ d.docId := by
    intro r hr heq
    exact (List.nodup_cons.mp hparts.2.1).1 (heq ▸ List.mem_map_of_mem StoredRecipe.docId hr)
  have hl1 : l1.filter (fun r => !(r.docId == d.docId)) = l1 := by
    rw [List.filter_eq_self]
    intro r hr
    simp [hno1 r hr]
  have hl2 : l2.filter (fun r => !(r.docId == d.docId)) = l2 := by
    rw [List.filter_eq_self]
    intro r hr
    simp [hno2 r hr]
  rw [List.filter_append, hl1, List.filter_cons_of_neg (by simp), hl2]

/-- Witness for C4, with a later duplicate of the deleted `videoId` that is
left untouched. -/
theorem handleDeleteRecipe_first_match_witness :
    handleDeleteRecipe true
      [{ docId := "a", youtubeUrl := "u1", videoId := "AAAAAAAAAAA",
         thumbnailUrl := "t1", title := "T1", tags := ["Lunch"] },
       { docId := "b", youtubeUrl := "u2", videoId := "TGTTGTTGTTG",
         thumbnailUrl := "t2", title := "T2", tags := ["Dinner"] },
       { docId := "c", youtubeUrl := "u3", videoId := "TGTTGTTGTTG",
         thumbnailUrl := "t3", title := "T3", tags := ["Snacks"] }] "TGTTGTTGTTG" =
      ([{ docId := "a", youtubeUrl := "u1", videoId := "AAAAAAAAAAA",
          thumbnailUrl := "t1", title := "T1", tags := ["Lunch"] },
        { docId := "c", youtubeUrl := "u3", videoId := "TGTTGTTGTTG",
          thumbnailUrl := "t3", title := "T3", tags := ["Snacks"] }], "Recipe Deleted!") :=
  handleDeleteRecipe_first_match
    [{ docId := "a", youtubeUrl := "u1", videoId := "AAAAAAAAAAA",
       thumbnailUrl := "t1", title := "T1", tags := ["Lunch"] }]
    [{ docId := "c", youtubeUrl := "u3", videoId := "TGTTGTTGTTG",
       thumbnailUrl := "t3", title := "T3", tags := ["Snacks"] }]
    { docId := "b", youtubeUrl := "u2", videoId := "TGTTGTTGTTG",
      thumbnailUrl := "t2", title := "T2", tags := ["Dinner"] }
    "TGTTGTTGTTG" (by decide) (by decide) (by decide)

/-! ### Claim C8: grocery save-then-load round trip -/

/-- C8: for every text value (including the empty string) present in the
grocery editor at save time, saving after bootstrap persists exactly that
text into the singleton document's `content` field, and a subsequent
subscription event delivering that document sets the displayed grocery text
to exactly the saved text; the save also toasts success and leaves edit
mode. -/
theorem grocerySaveLoad_roundTrip (store : Option String) (g : String) (ed : Bool) :
    (handleSaveGroceryList true g store ed).1 = some g ∧
    groceryLoadText (handleSaveGroceryList true g store ed).1 = g ∧
    (handleSaveGroceryList true g store ed).2.1 = false ∧
    (handleSaveGroceryList true g store ed).2.2 = "Grocery List Saved!" := by
  unfold handleSaveGroceryList groceryLoadText
  rw [if_neg (by decide)]
  by_cases hg : g = "" <;> simp [hg]

/-! ### Claim C7: default tags on submission -/

/-- C7: for every submission with a valid extracted identifier and zero tags
selected, the record passed to the append mutation carries the full fixed
category list as tags; with one or more tags selected, exactly the selected
tags are stored. -/
theorem handleSubmit_default_tags (url thumb title : String) (tags : List String)
    (hv : getYoutubeVideoId url ≠ "") :
    (handleSubmit url thumb title [] true).map StoredRecipe.tags = some categories ∧
    (tags ≠ [] → (handleSubmit url thumb title tags true).map StoredRecipe.tags = some tags) := by
  unfold handleSubmit
  constructor
  · rw [if_pos ⟨rfl, hv⟩]
    simp
  · intro ht
    rw [if_pos ⟨rfl, hv⟩]
    simp [List.length_pos.mpr ht]

/-- Witness for C7. -/
theorem handleSubmit_default_tags_witness :
    (handleSubmit "https://youtu.be/dQw4w9WgXcQ" "th" "Ti" [] true).map StoredRecipe.tags =
      some ["Breakfast", "Lunch", "Snacks", "Dinner", "Late-night"] ∧
    (handleSubmit "https://youtu.be/dQw4w9WgXcQ" "th" "Ti" ["Lunch"] true).map
      StoredRecipe.tags = some ["Lunch"] :=
  ⟨(handleSubmit_default_tags "https://youtu.be/dQw4w9WgXcQ" "th" "Ti" ["Lunch"]
      (by decide)).1,
   (handleSubmit_default_tags "https://youtu.be/dQw4w9WgXcQ" "th" "Ti" ["Lunch"]
      (by decide)).2 (by decide)⟩

/-! ### Claim C9: debounce coalesces rapid edits into at most one fetch -/

lemma runChainAux (key : Bool) :
    ∀ (edits : List (Nat × String)) (s : MState) (tp : Nat) (up : String),
    s.pendingTimer = some (tp + 500, up) →
    chainAfter tp edits = true →
    (runTimed key s (edits.map fun p => (p.1, MEvent.edit p.2))).pendingTimer =
      some ((edits.getLastD (tp, up)).1 + 500, (edits.getLastD (tp, up)).2) ∧
    (runTimed key s (edits.map fun p => (p.1, MEvent.edit p.2))).fetches = s.fetches := by
  intro edits
  induction edits with
  | nil =>
    intro s tp up hp _
    exact ⟨hp, rfl⟩
  | cons e rest ih =>
    obtain ⟨t, u⟩ := e
    intro s tp up hp hc
    have hc' : ((decide (tp < t) && decide (t < tp + 500)) && chainAfter t rest) = true := hc
    rw [Bool.and_eq_true, Bool.and_eq_true] at hc'
    have h2 : t < tp + 500 := of_decide_eq_true hc'.1.2
    have h3 : chainAfter t rest = true := hc'.2
    have hnl : ¬ (tp + 500 ≤ t) := by omega
    have hstep : (stepTimed key s (t, MEvent.edit u)).pendingTimer = some (t + 500, u) ∧
        (stepTimed key s (t, MEvent.edit u)).fetches = s.fetches := by
      by_cases hu : u = "" <;> simp [stepTimed, flushAt, applyEvent, hp, hnl, hu]
    have hrest := ih (stepTimed key s (t, MEvent.edit u)) t u hstep.1 h3
    rw [List.map_cons, List.getLastD_cons]
    show (runTimed key (stepTimed key s (t, MEvent.edit u))
        (rest.map fun p => (p.1, MEvent.edit p.2))).pendingTimer =
        some ((rest.getLastD (t, u)).1 + 500, (rest.getLastD (t, u)).2) ∧
      (runTimed key (stepTimed key s (t, MEvent.edit u))
        (rest.map fun p => (p.1, MEvent.edit p.2))).fetches = s.fetches
    exact ⟨hrest.1, hrest.2.trans hstep.2⟩

/-- C9: for every sequence of rapid URL edits, each occurring within the
500ms debounce window of the previous one, at most one title-fetch attempt
is ever issued (whenever the last pending timer is allowed to fire, at any
time `T`), and that attempt carries the video id extracted from the final
input value of the sequence. -/
theorem debounce_single_fetch (key : Bool) (e : Nat × String)
    (rest : List (Nat × String)) (T : Nat)
    (hchain : chainAfter e.1 rest = true) :
    (flushAt key (runTimed key initMState
        ((e :: rest).map fun p => (p.1, MEvent.edit p.2))) T).fetches.length ≤ 1 ∧
    ∀ v ∈ (flushAt key (runTimed key initMState
        ((e :: rest).map fun p => (p.1, MEvent.edit p.2))) T).fetches,
      v = getYoutubeVideoId (rest.getLastD e).2 := by
  obtain ⟨t1, u1⟩ := e
  have hstep : (stepTimed key initMState (t1, MEvent.edit u1)).pendingTimer =
      some (t1 + 500, u1) ∧
      (stepTimed key initMState (t1, MEvent.edit u1)).fetches = [] := by
    by_cases hu : u1 = "" <;> simp [stepTimed, flushAt, applyEvent, initMState, hu]
  have hrun := runChainAux key rest (stepTimed key initMState (t1, MEvent.edit u1))
    t1 u1 hstep.1 hchain
  have hfe := hrun.2.trans hstep.2
  rw [List.map_cons]
  show (flushAt key (runTimed key (stepTimed key initMState (t1, MEvent.edit u1))
      (rest.map fun p => (p.1, MEvent.edit p.2))) T).fetches.length ≤ 1 ∧
    ∀ v ∈ (flushAt key (runTimed key (stepTimed key initMState (t1, MEvent.edit u1))
      (rest.map fun p => (p.1, MEvent.edit p.2))) T).fetches,
      v = getYoutubeVideoId (rest.getLastD (t1, u1)).2
  generalize hg : rest.getLastD (t1, u1) = last
  rw [hg] at hrun
  obtain ⟨lt, lu⟩ := last
  have hflush : flushAt key (runTimed key (stepTimed key initMState (t1, MEvent.edit u1))
      (rest.map fun p => (p.1, MEvent.edit p.2))) T =
      (if lt + 500 ≤ T then
        fireTimer key (runTimed key (stepTimed key initMState (t1, MEvent.edit u1))
          (rest.map fun p => (p.1, MEvent.edit p.2)))
      else runTimed key (stepTimed key initMState (t1, MEvent.edit u1))
          (rest.map fun p => (p.1, MEvent.edit p.2))) := by
    unfold flushAt
    rw [hrun.1]
  rw [hflush]
  by_cases hT : lt + 500 ≤ T
  · rw [if_pos hT]
    have hfire : (fireTimer key (runTimed key (stepTimed key initMState (t1, MEvent.edit u1))
        (rest.map fun p => (p.1, MEvent.edit p.2)))).fetches =
        (if getYoutubeVideoId lu ≠ "" ∧ key = true then [getYoutubeVideoId lu]
        else []) := by
      unfold fireTimer
      rw [hrun.1]
      by_cases hv : getYoutubeVideoId lu = "" <;>
        cases key <;> simp [hv, hfe]
    rw [hfire]
    by_cases hv : getYoutubeVideoId lu = "" <;>
      cases key <;> simp [hv]
  · rw [if_neg hT, hfe]
    simp

/-- Witness for C9: two edits 100ms apart, flushed at 700ms. -/
theorem debounce_single_fetch_witness :
    chainAfter 0 [(100, "https://youtu.be/AAAAAAAAAAA")] = true ∧
    ((flushAt true (runTimed true initMState
        (((0, "https://youtu.be/dQw4w9WgXcQ") :: [(100, "https://youtu.be/AAAAAAAAAAA")]).map
          fun p => (p.1, MEvent.edit p.2))) 700).fetches.length ≤ 1 ∧
     ∀ v ∈ (flushAt true (runTimed true initMState
        (((0, "https://youtu.be/dQw4w9WgXcQ") :: [(100, "https://youtu.be/AAAAAAAAAAA")]).map
          fun p => (p.1, MEvent.edit p.2))) 700).fetches,
       v = getYoutubeVideoId ([(100, "https://youtu.be/AAAAAAAAAAA")].getLastD
         (0, "https://youtu.be/dQw4w9WgXcQ")).2) :=
  ⟨by decide,
   debounce_single_fetch true (0, "https://youtu.be/dQw4w9WgXcQ")
     [(100, "https://youtu.be/AAAAAAAAAAA")] 700 (by decide)⟩

/-! ### Claim C6: four-way title resolution, validity independent of it -/

/-- C6: whenever the debounced callback runs for a URL with a successful
identifier extraction, the resolved title follows the four-way case split
— API result with at least one item, result with zero items, failed call,
missing API key (in which case no call is made) — and the validity flag is
set to `true` in every case, independently of how the title resolves. -/
theorem title_resolution_cases (s : MState) (ft τ : Nat) (u title : String)
    (restItems : List String)
    (hp : s.pendingTimer = some (ft, u)) (hv : getYoutubeVideoId u ≠ "") :
    ((fireTimer false s).videoTitle = "Untitled Recipe (API Key missing)" ∧
     (fireTimer false s).isValidUrl = true ∧
     (fireTimer false s).fetches = s.fetches) ∧
    ((fireTimer true s).isValidUrl = true ∧
     (fireTimer true s).fetches = s.fetches ++ [getYoutubeVideoId u] ∧
     (stepTimed true (fireTimer true s)
        (τ, MEvent.resolve s.nextFid (FetchOutcome.ok (title :: restItems)))).videoTitle =
       title ∧
     (stepTimed true (fireTimer true s)
        (τ, MEvent.resolve s.nextFid (FetchOutcome.ok []))).videoTitle =
       "Untitled Recipe (Video not found or private)" ∧
     (stepTimed true (fireTimer true s)
        (τ, MEvent.resolve s.nextFid FetchOutcome.err)).videoTitle =
       "Untitled Recipe (Error fetching title)" ∧
     (stepTimed true (fireTimer true s)
        (τ, MEvent.resolve s.nextFid (FetchOutcome.ok (title :: restItems)))).isValidUrl =
       true) := by
  simp [fireTimer, hp, hv, stepTimed, flushAt, applyEvent, outcomeTitle]

/-- Witness for C6. -/
theorem title_resolution_cases_witness :
    (({ youtubeUrl := "https://youtu.be/dQw4w9WgXcQ", thumbnailUrl := "",
        videoTitle := "", isValidUrl := false, isLoadingThumbnail := true,
        isFetchingTitle := true,
        pendingTimer := some (500, "https://youtu.be/dQw4w9WgXcQ"),
        inFlight := [], fetches := [], nextFid := 0 } : MState).pendingTimer =
      some (500, "https://youtu.be/dQw4w9WgXcQ")) ∧
    getYoutubeVideoId "https://youtu.be/dQw4w9WgXcQ" ≠ "" ∧
    (fireTimer false
      { youtubeUrl := "https://youtu.be/dQw4w9WgXcQ", thumbnailUrl := "",
        videoTitle := "", isValidUrl := false, isLoadingThumbnail := true,
        isFetchingTitle := true,
        pendingTimer := some (500, "https://youtu.be/dQw4w9WgXcQ"),
        inFlight := [], fetches := [], nextFid := 0 }).videoTitle =
      "Untitled Recipe (API Key missing)" ∧
    (stepTimed true (fireTimer true
      { youtubeUrl := "https://youtu.be/dQw4w9WgXcQ", thumbnailUrl := "",
        videoTitle := "", isValidUrl := false, isLoadingThumbnail := true,
        isFetchingTitle := true,
        pendingTimer := some (500, "https://youtu.be/dQw4w9WgXcQ"),
        inFlight := [], fetches := [], nextFid := 0 })
      (900, MEvent.resolve 0 (FetchOutcome.ok ["Pasta night"]))).videoTitle =
      "Pasta night" := by
  refine ⟨rfl, by decide, ?_, ?_⟩
  · exact (title_resolution_cases _ 500 900 _ "Pasta night" []
      rfl (by decide)).1.1
  · exact (title_resolution_cases _ 500 900 _ "Pasta night" []
      rfl (by decide)).2.2.2.1

/-! ### Claim C1: no guard against out-of-order fetch resolution -/

/-- Counterexample to C1: in the trace `c1events` the first edit's fetch
(for video `AAAAAAAAAAA`) is still in flight when the second edit occurs;
the second edit's own fetch resolves first with `Title B`, then the stale
fetch resolves with `Title A` — and the displayed title ends as the stale
`Title A`, because the cleanup only clears the debounce timer and nothing
checks staleness after the `await`.  So the superseded fetch's result is
not discarded and does overwrite the state derived from the newest input. -/
theorem stale_fetch_overwrites_title :
    (runTimed true initMState c1events).videoTitle = "Title A" ∧
    (runTimed true initMState c1events).fetches = ["AAAAAAAAAAA", "BBBBBBBBBBB"] ∧
    (runTimed true initMState c1events).inFlight = [] := by decide

/-- C1 amended: an edit superseded before its debounce timer fires is
discarded entirely — the timer is cleared, so no title fetch is ever issued
for it and the in-flight set is untouched; but (per the counterexample) a
fetch already in flight when a later edit occurs is not cancelled, and its
resolution is still applied to the displayed title even if it completes
after the newer request's resolution. -/
theorem edit_before_fire_discards (key : Bool) (s : MState) (t1 t2 : Nat)
    (u1 u2 : String) (h0 : s.pendingTimer = none) (h2 : t2 < t1 + 500) :
    (stepTimed key (stepTimed key s (t1, MEvent.edit u1))
      (t2, MEvent.edit u2)).fetches = s.fetches ∧
    (stepTimed key (stepTimed key s (t1, MEvent.edit u1))
      (t2, MEvent.edit u2)).inFlight = s.inFlight ∧
    (stepTimed key (stepTimed key s (t1, MEvent.edit u1))
      (t2, MEvent.edit u2)).pendingTimer = some (t2 + 500, u2) := by
  have hnl : ¬ (t1 + 500 ≤ t2) := by omega
  by_cases hu1 : u1 = "" <;> by_cases hu2 : u2 = "" <;>
    simp [stepTimed, flushAt, applyEvent, h0, hnl, hu1, hu2]

/-- Witness for the amended C1. -/
theorem edit_before_fire_discards_witness :
    initMState.pendingTimer = none ∧ 100 < 0 + 500 ∧
    ((stepTimed true (stepTimed true initMState (0, MEvent.edit "https://youtu.be/AAAAAAAAAAA"))
        (100, MEvent.edit "https://youtu.be/BBBBBBBBBBB")).fetches = initMState.fetches ∧
     (stepTimed true (stepTimed true initMState (0, MEvent.edit "https://youtu.be/AAAAAAAAAAA"))
        (100, MEvent.edit "https://youtu.be/BBBBBBBBBBB")).inFlight = initMState.inFlight ∧
     (stepTimed true (stepTimed true initMState (0, MEvent.edit "https://youtu.be/AAAAAAAAAAA"))
        (100, MEvent.edit "https://youtu.be/BBBBBBBBBBB")).pendingTimer =
       some (100 + 500, "https://youtu.be/BBBBBBBBBBB")) :=
  ⟨rfl, by decide,
   edit_before_fire_discards true initMState 0 100
     "https://youtu.be/AAAAAAAAAAA" "https://youtu.be/BBBBBBBBBBB" rfl (by decide)⟩

/-! ### Claim C2: the invalid-input reset is itself debounced -/

/-- Counterexample to C2: in the trace `c2events` the input has just been
changed to the empty string (the state's `youtubeUrl` is `""`), yet
immediately after that change the validity flag is still `true` and the
thumbnail URL still points at the previous video — the reset of those
derived fields happens only inside the debounced 500ms callback, not
immediately at the input change as the claim states. -/
theorem invalid_reset_not_immediate :
    (runTimed false initMState c2events).youtubeUrl = "" ∧
    (runTimed false initMState c2events).isValidUrl = true ∧
    (runTimed false initMState c2events).thumbnailUrl =
      "https://img.youtube.com/vi/dQw4w9WgXcQ/hqdefault.jpg" := by decide

/-- C2 amended: when the URL input changes to an empty or unextractable
string, only the title is cleared immediately at the input change (and, for
the empty string, the loading flags are dropped; for a non-empty invalid
string they are instead raised until the debounce fires); the thumbnail
URL, validity flag and flags are all reset only once the 500ms debounce
window elapses and the debounced callback runs its invalid branch. -/
theorem invalid_input_reset_timing (key : Bool) (s : MState) (τ : Nat) (u : String)
    (hu : getYoutubeVideoId u = "") :
    (stepTimed key s (τ, MEvent.edit u)).videoTitle = "" ∧
    (u = "" → (stepTimed key s (τ, MEvent.edit u)).isLoadingThumbnail = false ∧
              (stepTimed key s (τ, MEvent.edit u)).isFetchingTitle = false) ∧
    (u ≠ "" → (stepTimed key s (τ, MEvent.edit u)).isLoadingThumbnail = true ∧
              (stepTimed key s (τ, MEvent.edit u)).isFetchingTitle = true) ∧
    (flushAt key (stepTimed key s (τ, MEvent.edit u)) (τ + 500)).thumbnailUrl = "" ∧
    (flushAt key (stepTimed key s (τ, MEvent.edit u)) (τ + 500)).isValidUrl = false ∧
    (flushAt key (stepTimed key s (τ, MEvent.edit u)) (τ + 500)).videoTitle = "" ∧
    (flushAt key (stepTimed key s (τ, MEvent.edit u)) (τ + 500)).isLoadingThumbnail = false ∧
    (flushAt key (stepTimed key s (τ, MEvent.edit u)) (τ + 500)).isFetchingTitle = false := by
  by_cases hu0 : u = ""
  · subst hu0
    simp [stepTimed, flushAt, applyEvent, fireTimer,
      show getYoutubeVideoId "" = "" from rfl]
  · simp [stepTimed, flushAt, applyEvent, fireTimer, hu0, hu]

/-- Witness for the amended C2 at the concrete invalid input `not a url`. -/
theorem invalid_input_reset_timing_witness :
    getYoutubeVideoId "not a url" = "" ∧
    (stepTimed false initMState (0, MEvent.edit "not a url")).videoTitle = "" ∧
    (stepTimed false initMState (0, MEvent.edit "not a url")).isFetchingTitle = true ∧
    (flushAt false (stepTimed false initMState (0, MEvent.edit "not a url"))
      (0 + 500)).isValidUrl = false ∧
    (flushAt false (stepTimed false initMState (0, MEvent.edit "not a url"))
      (0 + 500)).isFetchingTitle = false := by
  have h := invalid_input_reset_timing false initMState 0 "not a url" (by decide)
  exact ⟨by decide, h.1, (h.2.2.1 (by decide)).2, h.2.2.2.2.1, h.2.2.2.2.2.2.2⟩

end RecipeFlow
